import Mathlib

/-!
Verification development for the `neo4j_graph_connector` repository
(`src/neo4j_graph_connector/neo4j_graph_connector.py`, class `Neo4jConnector`).

We give a shallow embedding of the three operations of the connector:

* `Neo4jConnector.close` (lines 24-26): the driver handle and its release;
* `get_graph_schema` (lines 36-102): folding the two discovery result
  streams into the entity/relation schema;
* `execute_cypher_query_with_pagination` (lines 104-169): count wrapping,
  textual pagination detection, parameter injection (with Python's
  `parameters or {}` aliasing of the caller's dictionary), value
  normalization, and error propagation.

The database driver is modelled as a function from a query text and a
parameter mapping to either a failure or a list of records; each
`session.run` the code performs is recorded, in order, in a `sessionRuns`
trace (each entry is issued inside its own `with session` scope in the
source).  Python dictionaries are modelled as association lists with
insert-or-overwrite (`setKey`), matching `dict.__setitem__`/`dict.update`.
Python's `str.upper` is modelled character-wise by `Char.toUpper`
(faithful on ASCII query text).
-/

/-- A Python value as it appears in query parameters and result records.
`dateObj`/`dateTimeObj` model `datetime.date`/`datetime.datetime` objects,
carrying the string their `isoformat()` returns; `wrapper` models a
driver-specific value exposing a `to_native()` conversion to the wrapped
value; `other` models any further plain value with no `to_native`. -/
inductive Value where
  | int (n : Int)
  | str (s : String)
  | bool (b : Bool)
  | null
  | dateObj (iso : String)
  | dateTimeObj (iso : String)
  | wrapper (native : Value)
  | other (tag : String)
deriving DecidableEq

/-- A result record: `record.data().items()`, in order. -/
abbrev Rec := List (String × Value)

/-- A parameter mapping (a Python dict with string keys), in insertion order. -/
abbrev Params := List (String × Value)

/-- Dictionary lookup. -/
def getKey {β : Type} : List (String × β) → String → Option β
  | [], _ => none
  | (k, v) :: rest, k' => if k = k' then some v else getKey rest k'

/-- Dictionary insert-or-overwrite (`d[k] = v`), keeping the key's position. -/
def setKey {β : Type} : List (String × β) → String → β → List (String × β)
  | [], k, v => [(k, v)]
  | (k0, v0) :: rest, k, v =>
    if k0 = k then (k, v) :: rest else (k0, v0) :: setKey rest k v

/-- Python `str.upper()`, character-wise (faithful on ASCII). -/
def pyUpper (s : String) : String := ⟨s.data.map Char.toUpper⟩

/-- Does the character list start with the pattern? -/
def startsWithChars : List Char → List Char → Bool
  | [], _ => true
  | _ :: _, [] => false
  | p :: ps, c :: cs => p == c && startsWithChars ps cs

/-- Does the character list contain the pattern as a contiguous run? -/
def containsChars (pat : List Char) : List Char → Bool
  | [] => startsWithChars pat []
  | c :: cs => startsWithChars pat (c :: cs) || containsChars pat cs

/-- Python's substring test `pat in s`. -/
def containsSubstring (s pat : String) : Bool := containsChars pat.data s.data

/-- Line 138: `"LIMIT" in cypher_query.upper() or "SKIP" in cypher_query.upper()`. -/
def hasPaginationTokens (q : String) : Bool :=
  containsSubstring (pyUpper q) "LIMIT" || containsSubstring (pyUpper q) "SKIP"

/-- The failure raised out of schema discovery or query execution.  The
source logs the traceback and re-raises the original exception; the spec's
error taxonomy (section 7) names every such propagated execution failure a
`QueryError`, so the embedding uses that name for the whole class. -/
inductive QueryError where
  | driverFailure (msg : String)
  | resultNotSingle
  | missingField (key : String)
deriving DecidableEq

/-- The graph database driver, as the code consumes it: each
`session.run(query, params)` yields a record stream or raises. -/
abbrev Db := String → Params → Except QueryError (List Rec)

/-- Line 130: `"CALL (*) { " f"{cypher_query} " "} RETURN count(*) as total"`. -/
def count_query (q : String) : String :=
  "CALL (*) \x7b " ++ q ++ " \x7d RETURN count(*) as total"

/-- `Result.single()` of the driver: exactly one record, else a failure. -/
def resultSingle (rs : List Rec) : Except QueryError Rec :=
  match rs with
  | [r] => .ok r
  | _ => .error .resultNotSingle

/-- `record["total"]`-style field access: a failure when the key is absent. -/
def recordGet (r : Rec) (key : String) : Except QueryError Value :=
  match getKey r key with
  | some v => .ok v
  | none => .error (.missingField key)

/-- `hasattr(value, "to_native")` (line 157). -/
def hasNativeForm : Value → Bool
  | .wrapper _ => true
  | _ => false

/-- `value.to_native()`; only meaningful on wrappers. -/
def toNative : Value → Value
  | .wrapper v => v
  | v => v

/-- `isinstance(v, (datetime.date, datetime.datetime))` (lines 151-154). -/
def isTemporal : Value → Bool
  | .dateObj _ => true
  | .dateTimeObj _ => true
  | _ => false

/-- `v.isoformat()`; only meaningful on temporal values. -/
def isoformat : Value → String
  | .dateObj iso => iso
  | .dateTimeObj iso => iso
  | _ => ""

/-- Lines 148-159: normalize one column value. -/
def normalizeValue (v : Value) : Value :=
  if hasNativeForm v then
    if isTemporal (toNative v) then .str (isoformat (toNative v))
    else toNative v
  else v

/-- Lines 146-163: normalize every column of a record. -/
def normalizeRecord (r : Rec) : Rec := r.map (fun kv => (kv.1, normalizeValue kv.2))

/-- Lines 138-141: the query text actually run by the main fetch. -/
def effectiveQuery (q : String) : String :=
  if hasPaginationTokens q then q else q ++ " SKIP $skip LIMIT $limit"

/-- Line 142: `_parameters.update({"skip": skip, "limit": limit})`. -/
def updateSkipLimit (ps : Params) (skip limit : Int) : Params :=
  setKey (setKey ps "skip" (.int skip)) "limit" (.int limit)

/-- Lines 136-142: the parameter mapping actually run by the main fetch. -/
def effectiveParams (q : String) (ps : Params) (skip limit : Int) : Params :=
  if hasPaginationTokens q then ps else updateSkipLimit ps skip limit

/-- Everything observable about one call to
`execute_cypher_query_with_pagination`: the returned (or raised) outcome,
the final contents of the caller-supplied parameter dictionary (Python's
`parameters or {}` aliases it when it is truthy, so line 142 mutates it),
the entries written to the error sink, and the `session.run` trace. -/
structure ExecResult where
  outcome : Except QueryError (Option Value × List Rec)
  callerParams : Option Params
  errorLog : List QueryError
  sessionRuns : List (String × Params)

/-- Lines 136-163: the main (paginated) fetch, given the already-computed
total and the trace so far.  `callerParams` reflects the aliasing of
`_parameters = parameters or {}`: a truthy caller dictionary is the very
object updated on line 142, a falsy one is replaced by a fresh dict. -/
def runMainFetch (db : Db) (q : String) (parameters : Option Params)
    (limit skip : Int) (total : Option Value)
    (calls : List (String × Params)) : ExecResult :=
  let q2 := effectiveQuery q
  let p2 := effectiveParams q (parameters.getD []) skip limit
  let callerAfter : Option Params :=
    match parameters with
    | none => none
    | some ps => if ps = [] then some [] else some p2
  match db q2 p2 with
  | .error e => ⟨.error e, callerAfter, [e], calls ++ [(q2, p2)]⟩
  | .ok recs => ⟨.ok (total, recs.map normalizeRecord), callerAfter, [], calls ++ [(q2, p2)]⟩

/-- Lines 104-169: `execute_cypher_query_with_pagination(cypher_query,
parameters, limit, skip, get_total)` (source defaults: `limit=100`,
`skip=0`, `get_total=False`).  When `get_total` is set, the count query
runs first, in its own session, with `parameters or {}` as supplied by the
caller (the mutation of line 142 has not happened yet); any failure in it
aborts the call before that mutation. -/
def execute_cypher_query_with_pagination (db : Db) (cypher_query : String)
    (parameters : Option Params) (limit skip : Int) (get_total : Bool) :
    ExecResult :=
  match get_total with
  | true =>
    match db (count_query cypher_query) (parameters.getD []) with
    | .error e =>
      ⟨.error e, parameters, [e], [(count_query cypher_query, parameters.getD [])]⟩
    | .ok rs =>
      match resultSingle rs with
      | .error e =>
        ⟨.error e, parameters, [e], [(count_query cypher_query, parameters.getD [])]⟩
      | .ok r =>
        match recordGet r "total" with
        | .error e =>
          ⟨.error e, parameters, [e], [(count_query cypher_query, parameters.getD [])]⟩
        | .ok v =>
          runMainFetch db cypher_query parameters limit skip (some v)
            [(count_query cypher_query, parameters.getD [])]
  | false => runMainFetch db cypher_query parameters limit skip none []

/-- One entity record of the schema (lines 57-61). -/
structure Entity where
  attributes : List String
  relations : List String
deriving DecidableEq

/-- The `schema["entities"]` dictionary. -/
abbrev EntMap := List (String × Entity)

/-- `list(set(a) | set(b))`: the content is the union; the embedding fixes
one concrete order (Python's set order is unspecified). -/
def pySetUnion (a b : List String) : List String := (a ++ b).dedup

/-- Lines 56-65: process one label of one node record. -/
def touchLabel (properties : List String) (m : EntMap) (label : String) : EntMap :=
  let e := (getKey m label).getD ⟨[], []⟩
  setKey m label ⟨pySetUnion e.attributes properties, e.relations⟩

/-- Lines 53-65: process one record of the labels query
(`labels`, `properties`). -/
def foldLabelRecord (m : EntMap) (r : List String × List String) : EntMap :=
  r.1.foldl (touchLabel r.2) m

/-- Lines 86-90: append the relationship type to one source label's entity,
when that label is a known entity. -/
def appendRelation (rel : String) (m : EntMap) (src : String) : EntMap :=
  match getKey m src with
  | some e => setKey m src ⟨e.attributes, e.relations ++ [rel]⟩
  | none => m

/-- The assembled schema value (line 44). -/
structure Schema where
  entities : EntMap
  relations : List (String × (Option String × Option String))
deriving DecidableEq

/-- One record of the relationships query:
(`relationship`, `source` labels, `target` labels). -/
abbrev RelRec := String × List String × List String

/-- Lines 73-90: process one record of the relationships query. -/
def foldRelRecord (s : Schema) (r : RelRec) : Schema :=
  { entities := r.2.1.foldl (appendRelation r.1) s.entities,
    relations := setKey s.relations r.1 (r.2.1.head?, r.2.2.head?) }

/-- Lines 92-96: deduplicate every entity's `relations` list. -/
def dedupRelations (s : Schema) : Schema :=
  { s with
    entities := s.entities.map (fun p => (p.1, ⟨p.2.attributes, p.2.relations.dedup⟩)) }

/-- Lines 44-96: assemble the schema from the two result streams. -/
def buildSchema (lrecs : List (List String × List String)) (rrecs : List RelRec) :
    Schema :=
  dedupRelations (rrecs.foldl foldRelRecord ⟨lrecs.foldl foldLabelRecord [], []⟩)

/-- The two discovery result streams as the driver delivers them to
`get_graph_schema`: lines 52 and 72 (`session.run` of the labels query and
of the relationships query), each possibly raising. -/
structure SchemaDb where
  labelRecords : Except QueryError (List (List String × List String))
  relRecords : Except QueryError (List RelRec)

/-- Everything observable about one `get_graph_schema` call. -/
structure SchemaResult where
  outcome : Except QueryError Schema
  errorLog : List QueryError

/-- Lines 36-102: run the two discovery queries in order; any failure is
logged and re-raised, and no partial schema escapes. -/
def get_graph_schema (db : SchemaDb) : SchemaResult :=
  match db.labelRecords with
  | .error e => ⟨.error e, [e]⟩
  | .ok lrecs =>
    match db.relRecords with
    | .error e => ⟨.error e, [e]⟩
    | .ok rrecs => ⟨.ok (buildSchema lrecs rrecs), []⟩

/-- The driver handle.  Its own `close()` is idempotent (collaborator
contract of the `neo4j` driver): closing marks it closed. -/
structure NeoDriver where
  closed : Bool
deriving DecidableEq

/-- `driver.close()` of the underlying driver object. -/
def NeoDriver.closeHandle (d : NeoDriver) : NeoDriver := { d with closed := true }

/-- The connector state relevant to `close`: the (possibly absent/falsy)
driver handle held in `self._driver`. -/
structure Neo4jConnector where
  driver : Option NeoDriver
deriving DecidableEq

/-- Lines 24-26: `if self.driver: self.driver.close()`. -/
def Neo4jConnector.close (c : Neo4jConnector) : Neo4jConnector :=
  match c.driver with
  | some d => { c with driver := some d.closeHandle }
  | none => c

/-- The attribute list recorded for a label (empty when absent). -/
def attrsAt (m : EntMap) (L : String) : List String :=
  ((getKey m L).getD ⟨[], []⟩).attributes

/-- The relations list recorded for a label (empty when absent). -/
def relsAt (m : EntMap) (L : String) : List String :=
  ((getKey m L).getD ⟨[], []⟩).relations

/-- Is the label a known entity? -/
def hasEnt (m : EntMap) (L : String) : Bool := (getKey m L).isSome

/-- The last relationship record of a given type, if any (dictionary
assignment on line 79 is last-write-wins). -/
def lastRel (T : String) : List RelRec → Option RelRec
  | [] => none
  | r :: rs =>
    match lastRel T rs with
    | some r0 => some r0
    | none => if r.1 = T then some r else none

/-! ### Dictionary lemmas -/

theorem getKey_setKey {β : Type} (m : List (String × β)) (k k' : String) (v : β) :
    getKey (setKey m k v) k' = if k = k' then some v else getKey m k' := by
  induction m with
  | nil => by_cases h : k = k' <;> simp [setKey, getKey, h]
  | cons p rest ih =>
    obtain ⟨k0, v0⟩ := p
    by_cases h0 : k0 = k <;> by_cases h1 : k = k' <;> by_cases h2 : k0 = k' <;>
      simp_all [setKey, getKey]

theorem mem_pySetUnion (a : String) (x y : List String) :
    a ∈ pySetUnion x y ↔ a ∈ x ∨ a ∈ y := by
  simp [pySetUnion]

/-! ### Label-phase lemmas -/

theorem mem_attrsAt_touchLabel (a : String) (props : List String) (m : EntMap)
    (l L : String) :
    a ∈ attrsAt (touchLabel props m l) L ↔ a ∈ attrsAt m L ∨ (L = l ∧ a ∈ props) := by
  simp only [attrsAt, touchLabel]
  rw [getKey_setKey]
  by_cases h : l = L
  · subst h
    simp [mem_pySetUnion]
  · have h2 : ¬(L = l) := fun hh => h hh.symm
    simp [h, h2]

theorem relsAt_touchLabel (props : List String) (m : EntMap) (l L : String) :
    relsAt (touchLabel props m l) L = relsAt m L := by
  simp only [relsAt, touchLabel]
  rw [getKey_setKey]
  by_cases h : l = L
  · subst h
    simp
  · simp [h]

theorem hasEnt_touchLabel (props : List String) (m : EntMap) (l L : String) :
    hasEnt (touchLabel props m l) L = true ↔ hasEnt m L = true ∨ L = l := by
  simp only [hasEnt, touchLabel]
  rw [getKey_setKey]
  by_cases h : l = L
  · subst h
    simp
  · have h2 : ¬(L = l) := fun hh => h hh.symm
    simp [h, h2]

theorem mem_attrsAt_foldTouch (a : String) (props : List String) (ls : List String)
    (m : EntMap) (L : String) :
    a ∈ attrsAt (ls.foldl (touchLabel props) m) L ↔
      a ∈ attrsAt m L ∨ (L ∈ ls ∧ a ∈ props) := by
  induction ls generalizing m with
  | nil => simp
  | cons l rest ih =>
    simp only [List.foldl_cons]
    rw [ih, mem_attrsAt_touchLabel]
    simp only [List.mem_cons]
    tauto

theorem relsAt_foldTouch (props : List String) (ls : List String) (m : EntMap)
    (L : String) :
    relsAt (ls.foldl (touchLabel props) m) L = relsAt m L := by
  induction ls generalizing m with
  | nil => rfl
  | cons l rest ih =>
    simp only [List.foldl_cons]
    rw [ih, relsAt_touchLabel]

theorem hasEnt_foldTouch (props : List String) (ls : List String) (m : EntMap)
    (L : String) :
    hasEnt (ls.foldl (touchLabel props) m) L = true ↔ hasEnt m L = true ∨ L ∈ ls := by
  induction ls generalizing m with
  | nil => simp
  | cons l rest ih =>
    simp only [List.foldl_cons]
    rw [ih, hasEnt_touchLabel]
    simp only [List.mem_cons]
    tauto

theorem mem_attrsAt_labelPhase (a : String) (recs : List (List String × List String))
    (m : EntMap) (L : String) :
    a ∈ attrsAt (recs.foldl foldLabelRecord m) L ↔
      a ∈ attrsAt m L ∨ ∃ r ∈ recs, L ∈ r.1 ∧ a ∈ r.2 := by
  induction recs generalizing m with
  | nil => simp
  | cons r rest ih =>
    simp only [List.foldl_cons, foldLabelRecord]
    rw [ih, mem_attrsAt_foldTouch]
    simp only [List.mem_cons, exists_eq_or_imp]
    tauto

theorem relsAt_labelPhase (recs : List (List String × List String)) (m : EntMap)
    (L : String) :
    relsAt (recs.foldl foldLabelRecord m) L = relsAt m L := by
  induction recs generalizing m with
  | nil => rfl
  | cons r rest ih =>
    simp only [List.foldl_cons, foldLabelRecord]
    rw [ih, relsAt_foldTouch]

theorem hasEnt_labelPhase (recs : List (List String × List String)) (m : EntMap)
    (L : String) :
    hasEnt (recs.foldl foldLabelRecord m) L = true ↔
      hasEnt m L = true ∨ ∃ r ∈ recs, L ∈ r.1 := by
  induction recs generalizing m with
  | nil => simp
  | cons r rest ih =>
    simp only [List.foldl_cons, foldLabelRecord]
    rw [ih, hasEnt_foldTouch]
    simp only [List.mem_cons, exists_eq_or_imp]
    tauto

/-! ### Relationship-phase lemmas -/

theorem hasEnt_appendRelation (rel : String) (m : EntMap) (s L : String) :
    hasEnt (appendRelation rel m s) L = hasEnt m L := by
  simp only [appendRelation, hasEnt]
  cases h : getKey m s with
  | none => rfl
  | some e =>
    rw [getKey_setKey]
    by_cases h2 : s = L
    · subst h2
      simp [h]
    · simp [h2]

theorem attrsAt_appendRelation (rel : String) (m : EntMap) (s L : String) :
    attrsAt (appendRelation rel m s) L = attrsAt m L := by
  simp only [appendRelation, attrsAt]
  cases h : getKey m s with
  | none => rfl
  | some e =>
    rw [getKey_setKey]
    by_cases h2 : s = L
    · subst h2
      simp [h]
    · simp [h2]

theorem mem_relsAt_appendRelation (T rel : String) (m : EntMap) (s L : String) :
    T ∈ relsAt (appendRelation rel m s) L ↔
      T ∈ relsAt m L ∨ (T = rel ∧ L = s ∧ hasEnt m s = true) := by
  simp only [appendRelation, relsAt, hasEnt]
  cases h : getKey m s with
  | none => simp
  | some e =>
    rw [getKey_setKey]
    by_cases h2 : s = L
    · subst h2
      simp [h]
    · have h3 : ¬(L = s) := fun hh => h2 hh.symm
      simp [h2, h3]

theorem hasEnt_foldAppend (rel : String) (src : List String) (m : EntMap)
    (L : String) :
    hasEnt (src.foldl (appendRelation rel) m) L = hasEnt m L := by
  induction src generalizing m with
  | nil => rfl
  | cons s rest ih =>
    simp only [List.foldl_cons]
    rw [ih, hasEnt_appendRelation]

theorem attrsAt_foldAppend (rel : String) (src : List String) (m : EntMap)
    (L : String) :
    attrsAt (src.foldl (appendRelation rel) m) L = attrsAt m L := by
  induction src generalizing m with
  | nil => rfl
  | cons s rest ih =>
    simp only [List.foldl_cons]
    rw [ih, attrsAt_appendRelation]

theorem mem_relsAt_foldAppend (T rel : String) (src : List String) (m : EntMap)
    (L : String) :
    T ∈ relsAt (src.foldl (appendRelation rel) m) L ↔
      T ∈ relsAt m L ∨ (T = rel ∧ L ∈ src ∧ hasEnt m L = true) := by
  induction src generalizing m with
  | nil => simp
  | cons s rest ih =>
    simp only [List.foldl_cons]
    rw [ih, mem_relsAt_appendRelation, hasEnt_appendRelation]
    by_cases hLs : L = s
    · subst hLs
      simp only [List.mem_cons]
      tauto
    · simp only [List.mem_cons]
      tauto

theorem hasEnt_foldRelRecord (r : RelRec) (s : Schema) (L : String) :
    hasEnt (foldRelRecord s r).entities L = hasEnt s.entities L := by
  simp only [foldRelRecord]
  exact hasEnt_foldAppend r.1 r.2.1 s.entities L

theorem attrsAt_foldRelRecord (r : RelRec) (s : Schema) (L : String) :
    attrsAt (foldRelRecord s r).entities L = attrsAt s.entities L := by
  simp only [foldRelRecord]
  exact attrsAt_foldAppend r.1 r.2.1 s.entities L

theorem mem_relsAt_foldRelRecord (T : String) (r : RelRec) (s : Schema) (L : String) :
    T ∈ relsAt (foldRelRecord s r).entities L ↔
      T ∈ relsAt s.entities L ∨ (T = r.1 ∧ L ∈ r.2.1 ∧ hasEnt s.entities L = true) := by
  simp only [foldRelRecord]
  exact mem_relsAt_foldAppend T r.1 r.2.1 s.entities L

theorem getKey_relations_foldRelRecord (r : RelRec) (s : Schema) (T : String) :
    getKey (foldRelRecord s r).relations T =
      if r.1 = T then some (r.2.1.head?, r.2.2.head?) else getKey s.relations T := by
  simp only [foldRelRecord]
  exact getKey_setKey s.relations r.1 T (r.2.1.head?, r.2.2.head?)

theorem hasEnt_relPhase (rrecs : List RelRec) (s : Schema) (L : String) :
    hasEnt ((rrecs.foldl foldRelRecord s).entities) L = hasEnt s.entities L := by
  induction rrecs generalizing s with
  | nil => rfl
  | cons r rest ih =>
    simp only [List.foldl_cons]
    rw [ih, hasEnt_foldRelRecord]

theorem attrsAt_relPhase (rrecs : List RelRec) (s : Schema) (L : String) :
    attrsAt ((rrecs.foldl foldRelRecord s).entities) L = attrsAt s.entities L := by
  induction rrecs generalizing s with
  | nil => rfl
  | cons r rest ih =>
    simp only [List.foldl_cons]
    rw [ih, attrsAt_foldRelRecord]

theorem mem_relsAt_relPhase (T : String) (rrecs : List RelRec) (s : Schema)
    (L : String) :
    T ∈ relsAt ((rrecs.foldl foldRelRecord s).entities) L ↔
      T ∈ relsAt s.entities L ∨
        ∃ r ∈ rrecs, T = r.1 ∧ L ∈ r.2.1 ∧ hasEnt s.entities L = true := by
  induction rrecs generalizing s with
  | nil => simp
  | cons r rest ih =>
    simp only [List.foldl_cons]
    rw [ih, mem_relsAt_foldRelRecord, hasEnt_foldRelRecord]
    simp only [List.mem_cons, exists_eq_or_imp]
    tauto

theorem getKey_relations_relPhase (T : String) (rrecs : List RelRec) (s : Schema) :
    getKey ((rrecs.foldl foldRelRecord s).relations) T =
      (lastRel T rrecs).elim (getKey s.relations T)
        (fun r => some (r.2.1.head?, r.2.2.head?)) := by
  induction rrecs generalizing s with
  | nil => simp [lastRel]
  | cons r rest ih =>
    simp only [List.foldl_cons]
    rw [ih]
    simp only [lastRel]
    cases h : lastRel T rest with
    | some r0 => simp
    | none =>
      simp only [Option.elim]
      rw [getKey_relations_foldRelRecord]
      by_cases hr : r.1 = T
      · simp [hr]
      · simp [hr]

theorem lastRel_isSome (T : String) (rs : List RelRec) :
    (lastRel T rs).isSome = true ↔ ∃ r ∈ rs, r.1 = T := by
  induction rs with
  | nil => simp [lastRel]
  | cons r rest ih =>
    simp only [lastRel, List.mem_cons, exists_eq_or_imp]
    cases h : lastRel T rest with
    | some r0 =>
      rw [h] at ih
      simp at ih
      simp [ih]
    | none =>
      rw [h] at ih
      simp at ih
      by_cases hr : r.1 = T
      · simp [hr]
      · simp [hr, ih]

/-! ### Dedup-step lemmas -/

theorem getKey_dedupEnt (m : EntMap) (L : String) :
    getKey (m.map (fun p => (p.1,
        Entity.mk p.2.attributes p.2.relations.dedup))) L =
      (getKey m L).map (fun e => Entity.mk e.attributes e.relations.dedup) := by
  induction m with
  | nil => rfl
  | cons p rest ih =>
    simp only [List.map_cons, getKey]
    by_cases h : p.1 = L <;> simp [h, ih]

theorem hasEnt_dedupRelations (s : Schema) (L : String) :
    hasEnt (dedupRelations s).entities L = hasEnt s.entities L := by
  simp only [dedupRelations, hasEnt, getKey_dedupEnt]
  cases getKey s.entities L <;> rfl

theorem attrsAt_dedupRelations (s : Schema) (L : String) :
    attrsAt (dedupRelations s).entities L = attrsAt s.entities L := by
  simp only [dedupRelations, attrsAt, getKey_dedupEnt]
  cases getKey s.entities L <;> rfl

theorem relsAt_dedupRelations (s : Schema) (L : String) :
    relsAt (dedupRelations s).entities L = (relsAt s.entities L).dedup := by
  simp only [dedupRelations, relsAt, getKey_dedupEnt]
  cases getKey s.entities L <;> simp

theorem relations_dedupRelations (s : Schema) :
    (dedupRelations s).relations = s.relations := rfl

theorem nodup_relsAt_dedupRelations (s : Schema) (L : String) (e : Entity)
    (h : getKey (dedupRelations s).entities L = some e) : e.relations.Nodup := by
  simp only [dedupRelations, getKey_dedupEnt] at h
  cases h2 : getKey s.entities L with
  | none => rw [h2] at h; cases h
  | some e0 =>
    rw [h2] at h
    simp at h
    rw [← h]
    exact List.nodup_dedup e0.relations

/-! ### Executor unfolding lemmas -/

theorem sessionRuns_runMainFetch (db : Db) (q : String) (parameters : Option Params)
    (limit skip : Int) (total : Option Value) (calls : List (String × Params)) :
    (runMainFetch db q parameters limit skip total calls).sessionRuns =
      calls ++ [(effectiveQuery q, effectiveParams q (parameters.getD []) skip limit)] := by
  simp only [runMainFetch]
  cases db (effectiveQuery q) (effectiveParams q (parameters.getD []) skip limit) <;> rfl

theorem callerParams_runMainFetch_some (db : Db) (q : String) (ps : Params)
    (limit skip : Int) (total : Option Value) (calls : List (String × Params))
    (h : ps ≠ []) :
    (runMainFetch db q (some ps) limit skip total calls).callerParams =
      some (effectiveParams q ps skip limit) := by
  simp only [runMainFetch]
  cases db (effectiveQuery q) (effectiveParams q ((some ps).getD []) skip limit) <;>
    simp [h]

theorem callerParams_runMainFetch_none (db : Db) (q : String)
    (limit skip : Int) (total : Option Value) (calls : List (String × Params)) :
    (runMainFetch db q none limit skip total calls).callerParams = none := by
  simp only [runMainFetch]
  cases db (effectiveQuery q) (effectiveParams q (Option.getD none []) skip limit) <;>
    rfl

theorem callerParams_runMainFetch_nil (db : Db) (q : String)
    (limit skip : Int) (total : Option Value) (calls : List (String × Params)) :
    (runMainFetch db q (some []) limit skip total calls).callerParams = some [] := by
  simp only [runMainFetch]
  cases db (effectiveQuery q) (effectiveParams q ((some []).getD []) skip limit) <;>
    rfl

theorem outcome_runMainFetch_ok (db : Db) (q : String) (parameters : Option Params)
    (limit skip : Int) (total : Option Value) (calls : List (String × Params))
    (recs : List Rec)
    (h : db (effectiveQuery q) (effectiveParams q (parameters.getD []) skip limit) =
      .ok recs) :
    (runMainFetch db q parameters limit skip total calls).outcome =
      .ok (total, recs.map normalizeRecord) := by
  simp only [runMainFetch, h]

theorem outcome_runMainFetch_error (db : Db) (q : String) (parameters : Option Params)
    (limit skip : Int) (total : Option Value) (calls : List (String × Params))
    (e : QueryError)
    (h : db (effectiveQuery q) (effectiveParams q (parameters.getD []) skip limit) =
      .error e) :
    (runMainFetch db q parameters limit skip total calls).outcome = .error e
    ∧ (runMainFetch db q parameters limit skip total calls).errorLog = [e] := by
  constructor <;> simp only [runMainFetch, h]

theorem execute_false (db : Db) (q : String) (parameters : Option Params)
    (limit skip : Int) :
    execute_cypher_query_with_pagination db q parameters limit skip false =
      runMainFetch db q parameters limit skip none [] := rfl

theorem execute_true_count_ok (db : Db) (q : String) (parameters : Option Params)
    (limit skip : Int) (rs : List Rec) (r : Rec) (v : Value)
    (h1 : db (count_query q) (parameters.getD []) = .ok rs)
    (h2 : resultSingle rs = .ok r)
    (h3 : recordGet r "total" = .ok v) :
    execute_cypher_query_with_pagination db q parameters limit skip true =
      runMainFetch db q parameters limit skip (some v)
        [(count_query q, parameters.getD [])] := by
  simp only [execute_cypher_query_with_pagination, h1, h2, h3]

theorem execute_true_count_error (db : Db) (q : String) (parameters : Option Params)
    (limit skip : Int) (e : QueryError)
    (h1 : db (count_query q) (parameters.getD []) = .error e) :
    execute_cypher_query_with_pagination db q parameters limit skip true =
      ⟨.error e, parameters, [e], [(count_query q, parameters.getD [])]⟩ := by
  simp only [execute_cypher_query_with_pagination, h1]

theorem execute_true_notSingle (db : Db) (q : String) (parameters : Option Params)
    (limit skip : Int) (rs : List Rec) (e : QueryError)
    (h1 : db (count_query q) (parameters.getD []) = .ok rs)
    (h2 : resultSingle rs = .error e) :
    execute_cypher_query_with_pagination db q parameters limit skip true =
      ⟨.error e, parameters, [e], [(count_query q, parameters.getD [])]⟩ := by
  simp only [execute_cypher_query_with_pagination, h1, h2]

theorem execute_true_noTotal (db : Db) (q : String) (parameters : Option Params)
    (limit skip : Int) (rs : List Rec) (r : Rec) (e : QueryError)
    (h1 : db (count_query q) (parameters.getD []) = .ok rs)
    (h2 : resultSingle rs = .ok r)
    (h3 : recordGet r "total" = .error e) :
    execute_cypher_query_with_pagination db q parameters limit skip true =
      ⟨.error e, parameters, [e], [(count_query q, parameters.getD [])]⟩ := by
  simp only [execute_cypher_query_with_pagination, h1, h2, h3]

/-! ### Claims -/

/-- C9: `close()` is idempotent: it releases the connection handle when one
is present (the handle's own close marks it closed), it is a no-op when the
driver is absent (falsy) or already closed, and two consecutive `close()`
calls have the same observable effect as one. -/
theorem close_idempotent (c : Neo4jConnector) :
    Neo4jConnector.close (Neo4jConnector.close c) = Neo4jConnector.close c
    ∧ (Neo4jConnector.close c).driver = c.driver.map NeoDriver.closeHandle
    ∧ (c.driver = none → Neo4jConnector.close c = c)
    ∧ (∀ d : NeoDriver, d.closed = true →
        Neo4jConnector.close ⟨some d⟩ = ⟨some d⟩) := by
  refine ⟨?_, ?_, ?_, ?_⟩
  · cases c with
    | mk dr => cases dr <;> rfl
  · cases c with
    | mk dr => cases dr <;> rfl
  · intro h
    cases c with
    | mk dr =>
      cases dr with
      | none => rfl
      | some d => simp at h
  · intro d hd
    cases d with
    | mk b =>
      simp only [NeoDriver.closed] at hd
      subst hd
      rfl

/-- Witness for C9, at a concrete already-closed connector. -/
theorem close_idempotent_witness :
    Neo4jConnector.close ⟨some ⟨true⟩⟩ = ⟨some ⟨true⟩⟩ :=
  (close_idempotent ⟨some ⟨true⟩⟩).2.2.2 ⟨true⟩ rfl

/-- C1: when the query text already contains, case-insensitively, `LIMIT`
or `SKIP` as a substring, `execute_cypher_query_with_pagination` runs the
query text unchanged, inserts no `skip`/`limit` parameter entries, and its
whole behaviour is independent of the `skip` and `limit` arguments; every
session run uses the caller's (or the fresh empty) parameter mapping and
either the count-wrapped or the unchanged query text. -/
theorem pagination_pass_through (db : Db) (q : String) (parameters : Option Params)
    (limit skip limit' skip' : Int) (get_total : Bool)
    (h : hasPaginationTokens q = true) :
    effectiveQuery q = q
    ∧ effectiveParams q (parameters.getD []) skip limit = parameters.getD []
    ∧ execute_cypher_query_with_pagination db q parameters limit skip get_total
        = execute_cypher_query_with_pagination db q parameters limit' skip' get_total
    ∧ ∀ c ∈ (execute_cypher_query_with_pagination db q parameters limit skip
          get_total).sessionRuns,
        c.2 = parameters.getD [] ∧ (c.1 = count_query q ∨ c.1 = q) := by
  have hq : effectiveQuery q = q := by simp [effectiveQuery, h]
  have hp : ∀ sk li : Int,
      effectiveParams q (parameters.getD []) sk li = parameters.getD [] := by
    intro sk li
    simp [effectiveParams, h]
  have hrm : ∀ (li sk : Int) (total : Option Value) (calls : List (String × Params)),
      runMainFetch db q parameters li sk total calls =
        runMainFetch db q parameters limit' skip' total calls := by
    intro li sk total calls
    simp only [runMainFetch, hq, hp]
  refine ⟨hq, hp skip limit, ?_, ?_⟩
  · cases get_total with
    | false =>
      rw [execute_false, execute_false]
      exact hrm limit skip none []
    | true =>
      cases hdb : db (count_query q) (parameters.getD []) with
      | error e =>
        rw [execute_true_count_error db q parameters limit skip e hdb,
          execute_true_count_error db q parameters limit' skip' e hdb]
      | ok rs =>
        cases hs : resultSingle rs with
        | error e =>
          rw [execute_true_notSingle db q parameters limit skip rs e hdb hs,
            execute_true_notSingle db q parameters limit' skip' rs e hdb hs]
        | ok r =>
          cases hg : recordGet r "total" with
          | error e =>
            rw [execute_true_noTotal db q parameters limit skip rs r e hdb hs hg,
              execute_true_noTotal db q parameters limit' skip' rs r e hdb hs hg]
          | ok v =>
            rw [execute_true_count_ok db q parameters limit skip rs r v hdb hs hg,
              execute_true_count_ok db q parameters limit' skip' rs r v hdb hs hg]
            exact hrm limit skip (some v) _
  · intro c hc
    cases get_total with
    | false =>
      rw [execute_false, sessionRuns_runMainFetch, hq, hp] at hc
      simp only [List.nil_append, List.mem_singleton] at hc
      subst hc
      exact ⟨rfl, Or.inr rfl⟩
    | true =>
      cases hdb : db (count_query q) (parameters.getD []) with
      | error e =>
        rw [execute_true_count_error db q parameters limit skip e hdb] at hc
        simp only [List.mem_singleton] at hc
        subst hc
        exact ⟨rfl, Or.inl rfl⟩
      | ok rs =>
        cases hs : resultSingle rs with
        | error e =>
          rw [execute_true_notSingle db q parameters limit skip rs e hdb hs] at hc
          simp only [List.mem_singleton] at hc
          subst hc
          exact ⟨rfl, Or.inl rfl⟩
        | ok r =>
          cases hg : recordGet r "total" with
          | error e =>
            rw [execute_true_noTotal db q parameters limit skip rs r e hdb hs hg] at hc
            simp only [List.mem_singleton] at hc
            subst hc
            exact ⟨rfl, Or.inl rfl⟩
          | ok v =>
            rw [execute_true_count_ok db q parameters limit skip rs r v hdb hs hg,
              sessionRuns_runMainFetch, hq, hp] at hc
            simp only [List.cons_append, List.nil_append, List.mem_cons,
              List.not_mem_nil, or_false] at hc
            rcases hc with hc | hc
            · subst hc
              exact ⟨rfl, Or.inl rfl⟩
            · subst hc
              exact ⟨rfl, Or.inr rfl⟩

/-- Witness for C1: a query already carrying `LIMIT 5` is run unchanged. -/
theorem pagination_pass_through_witness :
    effectiveQuery "MATCH (n) RETURN n LIMIT 5" = "MATCH (n) RETURN n LIMIT 5" :=
  (pagination_pass_through (fun _ _ => .ok []) "MATCH (n) RETURN n LIMIT 5" none
    100 0 7 3 false (by decide)).1

/-- C2: when the query text contains neither `LIMIT` nor `SKIP`
(case-insensitively), the executor appends the pagination suffix
`" SKIP $skip LIMIT $limit"` to the query text, merges
`skip`/`limit` entries (overwriting caller-supplied ones) into the
parameter mapping, passes every other caller entry through unchanged, and
the main fetch runs exactly that query/parameter pair. -/
theorem pagination_injected (db : Db) (q : String) (ps : Params) (skip limit : Int)
    (h : hasPaginationTokens q = false) :
    effectiveQuery q = q ++ " SKIP $skip LIMIT $limit"
    ∧ getKey (effectiveParams q ps skip limit) "skip" = some (.int skip)
    ∧ getKey (effectiveParams q ps skip limit) "limit" = some (.int limit)
    ∧ (∀ k, k ≠ "skip" → k ≠ "limit" →
        getKey (effectiveParams q ps skip limit) k = getKey ps k)
    ∧ (execute_cypher_query_with_pagination db q (some ps) limit skip
        false).sessionRuns
        = [(q ++ " SKIP $skip LIMIT $limit", updateSkipLimit ps skip limit)] := by
  have hq : effectiveQuery q = q ++ " SKIP $skip LIMIT $limit" := by
    simp [effectiveQuery, h]
  have hp : effectiveParams q ps skip limit = updateSkipLimit ps skip limit := by
    simp [effectiveParams, h]
  refine ⟨hq, ?_, ?_, ?_, ?_⟩
  · rw [hp]
    simp only [updateSkipLimit]
    rw [getKey_setKey, if_neg (by decide), getKey_setKey, if_pos rfl]
  · rw [hp]
    simp only [updateSkipLimit]
    rw [getKey_setKey, if_pos rfl]
  · intro k h1 h2
    rw [hp]
    simp only [updateSkipLimit]
    rw [getKey_setKey, if_neg (fun hh => h2 hh.symm),
      getKey_setKey, if_neg (fun hh => h1 hh.symm)]
  · rw [execute_false, sessionRuns_runMainFetch]
    simp only [Option.getD_some, hq, hp, List.nil_append]

/-- Witness for C2: on a query with no pagination tokens, the `skip`
parameter is injected with the supplied value. -/
theorem pagination_injected_witness :
    getKey (effectiveParams "MATCH (n) RETURN n" [("a", Value.str "v")] 2 5) "skip"
      = some (Value.int 2) :=
  (pagination_injected (fun _ _ => .ok []) "MATCH (n) RETURN n"
    [("a", Value.str "v")] 2 5 (by decide)).2.1

/-- C10: when the caller supplies a non-empty parameter mapping and the
query text carries no pagination tokens, the caller's own mapping object is
mutated: after the call returns it holds the injected `skip` and `limit`
entries.  With no mapping, or an empty (falsy) one, a fresh mapping is used
and the caller's input is untouched. -/
theorem caller_params_mutated (db : Db) (q : String) (ps : Params)
    (skip limit : Int) (recs : List Rec)
    (hne : ps ≠ [])
    (hnopag : hasPaginationTokens q = false)
    (_hmain : db (q ++ " SKIP $skip LIMIT $limit") (updateSkipLimit ps skip limit) =
      .ok recs) :
    (execute_cypher_query_with_pagination db q (some ps) limit skip
        false).callerParams = some (updateSkipLimit ps skip limit)
    ∧ getKey (updateSkipLimit ps skip limit) "skip" = some (.int skip)
    ∧ getKey (updateSkipLimit ps skip limit) "limit" = some (.int limit)
    ∧ (execute_cypher_query_with_pagination db q none limit skip
        false).callerParams = none
    ∧ (execute_cypher_query_with_pagination db q (some []) limit skip
        false).callerParams = some [] := by
  have hp : effectiveParams q ps skip limit = updateSkipLimit ps skip limit := by
    simp [effectiveParams, hnopag]
  refine ⟨?_, ?_, ?_, ?_, ?_⟩
  · rw [execute_false, callerParams_runMainFetch_some db q ps limit skip none [] hne,
      hp]
  · simp only [updateSkipLimit]
    rw [getKey_setKey, if_neg (by decide), getKey_setKey, if_pos rfl]
  · simp only [updateSkipLimit]
    rw [getKey_setKey, if_pos rfl]
  · rw [execute_false, callerParams_runMainFetch_none]
  · rw [execute_false, callerParams_runMainFetch_nil]

/-- Witness for C10: a concrete non-empty caller mapping ends up holding
the injected pagination entries. -/
theorem caller_params_mutated_witness :
    (execute_cypher_query_with_pagination (fun _ _ => .ok []) "MATCH (n) RETURN n"
        (some [("a", Value.int 1)]) 5 3 false).callerParams
      = some (updateSkipLimit [("a", Value.int 1)] 3 5) :=
  (caller_params_mutated (fun _ _ => .ok []) "MATCH (n) RETURN n"
    [("a", Value.int 1)] 3 5 [] (by decide) (by decide) rfl).1

/-- C3: the returned total is non-`None` exactly when `get_total` is
requested; when it is, the total is the value obtained by running the
original query text wrapped as a `count(*)` subquery with the original
parameter mapping (no injected `skip`/`limit`), in its own session strictly
before the paginated fetch — so, for a driver whose count answer is the row
count of the original query (`hcount` with `h0`), the total equals that row
count and does not depend on the `skip`/`limit` arguments (which are
universally quantified and absent from the total). -/
theorem total_count_correct (db : Db) (q : String) (parameters : Option Params)
    (skip limit : Int) (rows0 recs : List Rec)
    (_h0 : db q (parameters.getD []) = .ok rows0)
    (hcount : db (count_query q) (parameters.getD []) =
      .ok [[("total", Value.int rows0.length)]])
    (hmain : db (effectiveQuery q) (effectiveParams q (parameters.getD []) skip limit)
      = .ok recs) :
    (execute_cypher_query_with_pagination db q parameters limit skip true).outcome
      = .ok (some (.int rows0.length), recs.map normalizeRecord)
    ∧ (execute_cypher_query_with_pagination db q parameters limit skip
        true).sessionRuns
      = [(count_query q, parameters.getD []),
         (effectiveQuery q, effectiveParams q (parameters.getD []) skip limit)]
    ∧ (execute_cypher_query_with_pagination db q parameters limit skip false).outcome
      = .ok (none, recs.map normalizeRecord) := by
  have hsingle : resultSingle [[("total", Value.int rows0.length)]] =
      .ok [("total", Value.int rows0.length)] := rfl
  have hget : recordGet [("total", Value.int rows0.length)] "total" =
      .ok (Value.int rows0.length) := rfl
  have hexec := execute_true_count_ok db q parameters limit skip _ _ _
    hcount hsingle hget
  refine ⟨?_, ?_, ?_⟩
  · rw [hexec]
    exact outcome_runMainFetch_ok db q parameters limit skip _ _ recs hmain
  · rw [hexec, sessionRuns_runMainFetch]
    rfl
  · rw [execute_false]
    exact outcome_runMainFetch_ok db q parameters limit skip none [] recs hmain

/-- A concrete driver for the C3 witness: the original query yields two
rows, its count-wrapped form yields a single `total = 2` record, and the
paginated form yields one row. -/
def witnessDbCount : Db := fun s _ =>
  if s = "MATCH (n) RETURN n" then
    .ok [[("x", Value.int 1)], [("x", Value.int 2)]]
  else if s = count_query "MATCH (n) RETURN n" then
    .ok [[("total", Value.int 2)]]
  else if s = "MATCH (n) RETURN n SKIP $skip LIMIT $limit" then
    .ok [[("x", Value.int 2)]]
  else .error (.driverFailure "unexpected query")

/-- Witness for C3 at the concrete driver. -/
theorem total_count_correct_witness :
    (execute_cypher_query_with_pagination witnessDbCount "MATCH (n) RETURN n" none
        1 1 true).outcome
      = .ok (some (Value.int 2), [[("x", Value.int 2)]]) :=
  (total_count_correct witnessDbCount "MATCH (n) RETURN n" none 1 1
    [[("x", Value.int 1)], [("x", Value.int 2)]] [[("x", Value.int 2)]]
    rfl rfl rfl).1

/-- C4: every failure during schema discovery, count computation or the
main fetch is written in full to the error sink and re-raised to the
caller (the class the spec's taxonomy names `QueryError`); the outcome is
the bare error, so no partial schema or partial result is ever returned. -/
theorem failure_propagation (sdb : SchemaDb) (db : Db) (q : String)
    (parameters : Option Params) (limit skip : Int) (e : QueryError) :
    (sdb.labelRecords = .error e →
      (get_graph_schema sdb).outcome = .error e
      ∧ (get_graph_schema sdb).errorLog = [e])
    ∧ (∀ lrecs, sdb.labelRecords = .ok lrecs → sdb.relRecords = .error e →
      (get_graph_schema sdb).outcome = .error e
      ∧ (get_graph_schema sdb).errorLog = [e])
    ∧ (db (count_query q) (parameters.getD []) = .error e →
      (execute_cypher_query_with_pagination db q parameters limit skip true).outcome
        = .error e
      ∧ (execute_cypher_query_with_pagination db q parameters limit skip
          true).errorLog = [e])
    ∧ (db (effectiveQuery q) (effectiveParams q (parameters.getD []) skip limit)
        = .error e →
      (execute_cypher_query_with_pagination db q parameters limit skip false).outcome
        = .error e
      ∧ (execute_cypher_query_with_pagination db q parameters limit skip
          false).errorLog = [e])
    ∧ (∀ rs r v, db (count_query q) (parameters.getD []) = .ok rs →
      resultSingle rs = .ok r → recordGet r "total" = .ok v →
      db (effectiveQuery q) (effectiveParams q (parameters.getD []) skip limit)
        = .error e →
      (execute_cypher_query_with_pagination db q parameters limit skip true).outcome
        = .error e
      ∧ (execute_cypher_query_with_pagination db q parameters limit skip
          true).errorLog = [e]) := by
  refine ⟨?_, ?_, ?_, ?_, ?_⟩
  · intro h
    simp [get_graph_schema, h]
  · intro lrecs h1 h2
    simp [get_graph_schema, h1, h2]
  · intro h
    rw [execute_true_count_error db q parameters limit skip e h]
    exact ⟨rfl, rfl⟩
  · intro h
    rw [execute_false]
    exact outcome_runMainFetch_error db q parameters limit skip none [] e h
  · intro rs r v hc1 hc2 hc3 hm
    rw [execute_true_count_ok db q parameters limit skip rs r v hc1 hc2 hc3]
    exact outcome_runMainFetch_error db q parameters limit skip (some v) _ e hm

/-- A concrete driver for the C4 witness: the count-wrapped query succeeds
with `total = 0`, every other query fails. -/
def witnessDbFetchFail : Db := fun s _ =>
  if s = count_query "MATCH (n) RETURN n" then .ok [[("total", Value.int 0)]]
  else .error (.driverFailure "boom")

/-- Witness for C4 at the claim's named scenario: the count succeeds but
the main fetch fails, and the whole call yields the bare failure — no
partial result carrying the computed total is returned. -/
theorem failure_propagation_witness :
    (execute_cypher_query_with_pagination witnessDbFetchFail "MATCH (n) RETURN n"
        none 1 0 true).outcome = .error (.driverFailure "boom") :=
  ((failure_propagation ⟨.error (.driverFailure "boom"), .ok []⟩ witnessDbFetchFail
    "MATCH (n) RETURN n" none 1 0 (.driverFailure "boom")).2.2.2.2
    [[("total", Value.int 0)]] [("total", Value.int 0)] (Value.int 0)
    rfl rfl rfl rfl).1

/-- C8: every column value of every returned record is normalized exactly
as the claim states: a value exposing a native-form conversion is replaced
by its native form, further serialized to its ISO-8601 string when that
native form is a calendar date or a date-time; any value without a
native-form conversion passes through unchanged. -/
theorem value_normalization (db : Db) (q : String) (parameters : Option Params)
    (skip limit : Int) (recs : List Rec)
    (hmain : db (effectiveQuery q) (effectiveParams q (parameters.getD []) skip limit)
      = .ok recs) :
    (execute_cypher_query_with_pagination db q parameters limit skip false).outcome
      = .ok (none, recs.map (fun r => r.map (fun kv =>
          (kv.1,
            if hasNativeForm kv.2 then
              if isTemporal (toNative kv.2) then Value.str (isoformat (toNative kv.2))
              else toNative kv.2
            else kv.2)))) := by
  rw [execute_false,
    outcome_runMainFetch_ok db q parameters limit skip none [] recs hmain]
  rfl

/-- Witness for C8: a wrapped date becomes its ISO string, a wrapped
integer becomes the integer, and a plain string passes through. -/
theorem value_normalization_witness :
    (execute_cypher_query_with_pagination
        (fun _ _ => .ok [[("d", Value.wrapper (Value.dateObj "2020-01-02")),
          ("w", Value.wrapper (Value.int 7)), ("p", Value.str "x")]])
        "MATCH (n) RETURN n" none 10 0 false).outcome
      = .ok (none, [[("d", Value.str "2020-01-02"), ("w", Value.int 7),
          ("p", Value.str "x")]]) :=
  value_normalization
    (fun _ _ => .ok [[("d", Value.wrapper (Value.dateObj "2020-01-02")),
      ("w", Value.wrapper (Value.int 7)), ("p", Value.str "x")]])
    "MATCH (n) RETURN n" none 0 10
    [[("d", Value.wrapper (Value.dateObj "2020-01-02")),
      ("w", Value.wrapper (Value.int 7)), ("p", Value.str "x")]] rfl

/-- C5: in the returned schema, a label is a known entity exactly when some
node record carries it (so zero-label nodes contribute no entity), and its
attribute set is exactly the union, over all node records carrying the
label, of their property keys; consequently appending a node record with a
new property key under an existing label grows that label's attribute set
and removes nothing. -/
theorem attribute_union (sdb : SchemaDb) (lrecs : List (List String × List String))
    (rrecs : List RelRec)
    (h1 : sdb.labelRecords = .ok lrecs) (h2 : sdb.relRecords = .ok rrecs) :
    (get_graph_schema sdb).outcome = .ok (buildSchema lrecs rrecs)
    ∧ (∀ L, hasEnt (buildSchema lrecs rrecs).entities L = true ↔
        ∃ r ∈ lrecs, L ∈ r.1)
    ∧ (∀ L a, a ∈ attrsAt (buildSchema lrecs rrecs).entities L ↔
        ∃ r ∈ lrecs, L ∈ r.1 ∧ a ∈ r.2)
    ∧ (∀ r0 L a, a ∈ attrsAt (buildSchema lrecs rrecs).entities L →
        a ∈ attrsAt (buildSchema (lrecs ++ [r0]) rrecs).entities L)
    ∧ (∀ r0 L a, L ∈ r0.1 → a ∈ r0.2 →
        a ∈ attrsAt (buildSchema (lrecs ++ [r0]) rrecs).entities L) := by
  have hent : ∀ (lr : List (List String × List String)) (L : String),
      hasEnt (buildSchema lr rrecs).entities L = true ↔ ∃ r ∈ lr, L ∈ r.1 := by
    intro lr L
    simp only [buildSchema, hasEnt_dedupRelations]
    rw [hasEnt_relPhase, hasEnt_labelPhase]
    simp [hasEnt, getKey]
  have hattr : ∀ (lr : List (List String × List String)) (L a : String),
      a ∈ attrsAt (buildSchema lr rrecs).entities L ↔
        ∃ r ∈ lr, L ∈ r.1 ∧ a ∈ r.2 := by
    intro lr L a
    simp only [buildSchema, attrsAt_dedupRelations]
    rw [attrsAt_relPhase, mem_attrsAt_labelPhase]
    simp [attrsAt, getKey]
  refine ⟨by simp [get_graph_schema, h1, h2], fun L => hent lrecs L,
    fun L a => hattr lrecs L a, ?_, ?_⟩
  · intro r0 L a ha
    rw [hattr] at ha
    rw [hattr]
    rcases ha with ⟨r, hr, hL, haa⟩
    exact ⟨r, by simp [hr], hL, haa⟩
  · intro r0 L a hL haa
    rw [hattr]
    exact ⟨r0, by simp, hL, haa⟩

/-- Witness for C5, the spec's scenario: two `Person` records with keys
`name, age` and `name` yield the union. -/
theorem attribute_union_witness :
    "age" ∈ attrsAt (buildSchema
        [(["Person"], ["name", "age"]), (["Person"], ["name"])]
        [("KNOWS", ["Person"], ["Person"])]).entities "Person" :=
  ((attribute_union ⟨.ok [(["Person"], ["name", "age"]), (["Person"], ["name"])],
      .ok [("KNOWS", ["Person"], ["Person"])]⟩
      [(["Person"], ["name", "age"]), (["Person"], ["name"])]
      [("KNOWS", ["Person"], ["Person"])] rfl rfl).2.2.1 "Person" "age").mpr
    ⟨(["Person"], ["name", "age"]), by simp, by simp, by simp⟩

/-- C6: a relationship type is in an entity's `relations` iff some
relationship record of that type lists the entity's label among its source
endpoint's labels — a label that is not a known entity simply has no entity
record at all (`appendRelation` skips it) — and after assembly every
entity's `relations` list is duplicate-free. -/
theorem relation_attribution (sdb : SchemaDb)
    (lrecs : List (List String × List String)) (rrecs : List RelRec)
    (h1 : sdb.labelRecords = .ok lrecs) (h2 : sdb.relRecords = .ok rrecs) :
    (get_graph_schema sdb).outcome = .ok (buildSchema lrecs rrecs)
    ∧ ∀ L e, getKey (buildSchema lrecs rrecs).entities L = some e →
        (∀ T, T ∈ e.relations ↔ ∃ r ∈ rrecs, T = r.1 ∧ L ∈ r.2.1)
        ∧ e.relations.Nodup := by
  refine ⟨by simp [get_graph_schema, h1, h2], ?_⟩
  intro L e he
  have hrel : e.relations = relsAt (buildSchema lrecs rrecs).entities L := by
    simp [relsAt, he]
  have hknown : hasEnt (lrecs.foldl foldLabelRecord []) L = true := by
    have hx : hasEnt (buildSchema lrecs rrecs).entities L = true := by
      simp [hasEnt, he]
    simp only [buildSchema, hasEnt_dedupRelations] at hx
    rw [hasEnt_relPhase] at hx
    exact hx
  constructor
  · intro T
    rw [hrel]
    simp only [buildSchema, relsAt_dedupRelations]
    rw [List.mem_dedup, mem_relsAt_relPhase]
    have hbase : relsAt (lrecs.foldl foldLabelRecord []) L = [] := by
      rw [relsAt_labelPhase]
      simp [relsAt, getKey]
    simp [hbase, hknown]
  · simp only [buildSchema] at he
    exact nodup_relsAt_dedupRelations _ L e he

/-- Witness for C6: a `KNOWS` relationship sourced at a known `Person`
entity is attributed to it. -/
theorem relation_attribution_witness :
    "KNOWS" ∈ (Entity.mk ["name"] ["KNOWS"]).relations :=
  (((relation_attribution
      ⟨.ok [(["Person"], ["name"])], .ok [("KNOWS", ["Person"], ["Person"])]⟩
      [(["Person"], ["name"])] [("KNOWS", ["Person"], ["Person"])] rfl rfl).2
      "Person" ⟨["name"], ["KNOWS"]⟩ (by decide)).1 "KNOWS").mpr
    ⟨("KNOWS", ["Person"], ["Person"]), by simp, rfl, by simp⟩

/-- C7: the top-level relations map holds, for each relationship type, the
first source/target label of the *last* record of that type (`none` for an
endpoint with no labels), and a relationship type is present exactly when
some record of that type exists — independently of whether its source
labels are known entities. -/
theorem relations_map_last_seen (sdb : SchemaDb)
    (lrecs : List (List String × List String)) (rrecs : List RelRec)
    (h1 : sdb.labelRecords = .ok lrecs) (h2 : sdb.relRecords = .ok rrecs) :
    (get_graph_schema sdb).outcome = .ok (buildSchema lrecs rrecs)
    ∧ (∀ T, getKey (buildSchema lrecs rrecs).relations T =
        (lastRel T rrecs).map (fun r => (r.2.1.head?, r.2.2.head?)))
    ∧ (∀ T, (getKey (buildSchema lrecs rrecs).relations T).isSome = true ↔
        ∃ r ∈ rrecs, r.1 = T) := by
  have hmap : ∀ T, getKey (buildSchema lrecs rrecs).relations T =
      (lastRel T rrecs).map (fun r => (r.2.1.head?, r.2.2.head?)) := by
    intro T
    simp only [buildSchema, relations_dedupRelations]
    rw [getKey_relations_relPhase]
    cases h : lastRel T rrecs <;> simp [getKey]
  refine ⟨by simp [get_graph_schema, h1, h2], hmap, ?_⟩
  intro T
  rw [hmap T, ← lastRel_isSome T rrecs]
  cases lastRel T rrecs <;> simp

/-- Witness for C7: duplicate relationship types keep the last-seen pair,
and an endpoint with no labels is recorded as `none`; the source label `C`
of the kept record is not a known entity, yet the entry is present. -/
theorem relations_map_last_seen_witness :
    getKey (buildSchema [(["A"], ["p"])]
        [("R", ["A"], ["B"]), ("R", ["C"], [])]).relations "R"
      = some (some "C", none) := by
  have h := (relations_map_last_seen
    ⟨.ok [(["A"], ["p"])], .ok [("R", ["A"], ["B"]), ("R", ["C"], [])]⟩
    [(["A"], ["p"])] [("R", ["A"], ["B"]), ("R", ["C"], [])] rfl rfl).2.1 "R"
  rw [h]
  rfl
